import Mathlib

/-!
# Verification of the `polyerror` error-type generator

A shallow embedding of the `polyerror` procedural macro crate:
`src/parser.rs` (parsing of the `create_error!` input),
`src/variant.rs` (variant-name derivation and per-variant emission) and
`src/lib.rs` (the `create_error` entry point and the emitted items).

Rust token streams are modelled by `Tok` lists, `syn` data types
(`Path`, `PathSegment`, `Visibility`) by structures, and the emitted
token stream by a structured value (`Emitted`) that records exactly the
items the `quote!` templates in the source produce, in order.
-/

namespace Polyerror

/-! ## Paths (model of `syn::Path` as used by this crate)

A `syn::Path` is a leading-colon flag plus a non-empty punctuated list of
segments; each segment is an identifier plus optional generic arguments.
The crate treats the arguments opaquely (they are only ever re-emitted
verbatim), so they are modelled as the raw token text, `""` standing for
`PathArguments::None`. -/

structure PathSegment where
  ident : String
  arguments : String
  deriving Repr, DecidableEq

structure Path where
  leading_colon : Bool
  segments : List PathSegment
  deriving Repr, DecidableEq

/-- Model of `syn`'s `ToTokens` for `Path`: the optional leading `::`,
then the segments (identifier followed by its verbatim argument tokens)
joined by `::`. -/
def Path.render (p : Path) : String :=
  (if p.leading_colon then "::" else "")
    ++ String.intercalate "::" (p.segments.map (fun s => s.ident ++ s.arguments))

/-! ## Class-casing (model of `inflector::cases::classcase::to_class_case`)

`recapitalize_error_path` in `src/variant.rs` delegates the per-word
casing to the external `inflector` crate, whose source is not part of
this repository. -/

/-- Splits a word at each transition from a lowercase scalar to an
uppercase scalar (camelCase boundary); the accumulator holds the current
sub-word reversed. -/
def splitCamelAux : List Char → List Char → List (List Char)
  | [], acc => [acc.reverse]
  | c :: rest, acc =>
    match acc with
    | p :: _ =>
      if p.isLower && c.isUpper then
        acc.reverse :: splitCamelAux rest [c]
      else
        splitCamelAux rest (c :: acc)
    | [] => splitCamelAux rest [c]

def splitCamel (w : List Char) : List (List Char) :=
  splitCamelAux w []

/-- Capitalizes one sub-word: first scalar uppercased, the rest lowercased. -/
def capitalizeWord : List Char → List Char
  | [] => []
  | c :: rest => c.toUpper :: rest.map Char.toLower

/-- Modelled from the spec: the `inflector` crate's `to_class_case`, the
one dependency of `recapitalize_error_path` whose source is outside this
repository, per §4.2 step 3: the word is split at lowercase-to-uppercase
transitions into sub-words, each sub-word is rewritten as initial capital
plus lowercased remainder, and the sub-words are joined with no
separator. -/
def to_class_case (w : String) : String :=
  String.join ((splitCamel w.data).map (fun l => String.mk (capitalizeWord l)))

/-! ## Name derivation (`src/variant.rs`) -/

/-- Rust's `str::split('_')`: pieces between underscores, in order,
keeping empty pieces from leading, trailing or consecutive underscores
(`"".split('_')` yields one empty piece). The accumulator holds the
current piece reversed. -/
def splitUnderscoreAux : List Char → List Char → List String
  | [], acc => [String.mk acc.reverse]
  | c :: rest, acc =>
    if c = '_' then String.mk acc.reverse :: splitUnderscoreAux rest []
    else splitUnderscoreAux rest (c :: acc)

def splitUnderscore (s : String) : List String :=
  splitUnderscoreAux s.data []

/-- Model of `recapitalize_error_path` in `src/variant.rs`: every
segment's identifier is split on `"_"` (keeping empty pieces, as Rust's
`split` does), the pieces are collected in order, and the name is built
by appending the class-case form of each piece. -/
def recapitalize_error_path (path : Path) : String :=
  let words := path.segments.flatMap (fun segment => splitUnderscore segment.ident)
  words.foldl (fun name word => name ++ to_class_case word) ""

/-- The name-derivation algorithm exactly as the spec's §4.2 words it:
segment identifiers in order, each split on underscores with empty words
discarded, each word class-cased, and all words concatenated with no
separator. Stated separately from `recapitalize_error_path` so the two
can be compared. -/
def specDeriveName (path : Path) : String :=
  let words :=
    (path.segments.map PathSegment.ident).flatMap
      (fun id => (splitUnderscore id).filter (fun w => w ≠ ""))
  String.join (words.map to_class_case)

/-! ## Tokens (model of the `proc_macro` token stream)

A token tree is an identifier (keywords included), a punctuation
character with its spacing (`joint` when glued to the next punctuation,
as in the first `:` of `::`), a delimited group, or a literal. -/

inductive Delim where
  | paren
  | brace
  | bracket
  deriving Repr, DecidableEq

inductive Tok where
  | ident (s : String)
  | punct (c : Char) (joint : Bool)
  | group (d : Delim) (inner : List Tok)
  | lit (s : String)
  deriving Repr

def Delim.openText : Delim → String
  | .paren => "("
  | .brace => "\x7b"
  | .bracket => "["

def Delim.closeText : Delim → String
  | .paren => ")"
  | .brace => "\x7d"
  | .bracket => "]"

mutual

/-- Token-to-text rendering (model of `TokenStream::to_string` as far as
this crate needs it: the generator only ever re-emits tokens verbatim). -/
def Tok.render : Tok → String
  | .ident s => s
  | .punct c _ => String.singleton c
  | .group d inner => d.openText ++ renderToks inner ++ d.closeText
  | .lit s => s

def renderToks : List Tok → String
  | [] => ""
  | t :: ts => t.render ++ renderToks ts

end

/-! ## Parsing (model of `src/parser.rs` and the `syn` combinators it calls)

`ErrorSpecification::parse` sequences `Visibility::parse`,
`Ident::parse`, `Token![:]` and
`Punctuated::<Path, Token![,]>::parse_terminated`. Each combinator below
consumes a prefix of the token list and returns the remainder. -/

/-- The words `syn::Ident`'s `Parse` impl refuses to accept as a plain
identifier (Rust's strict and reserved keywords plus `_`). -/
def rustReservedWords : List String :=
  ["_", "abstract", "as", "become", "box", "break", "const", "continue",
   "crate", "do", "dyn", "else", "enum", "extern", "false", "final", "fn",
   "for", "if", "impl", "in", "let", "loop", "macro", "match", "mod",
   "move", "mut", "override", "priv", "pub", "ref", "return", "Self",
   "self", "static", "struct", "super", "trait", "true", "try", "type",
   "typeof", "unsafe", "unsized", "use", "virtual", "where", "while",
   "yield"]

/-- Model of `syn::Ident::parse`: the next token must be an identifier
that is not a reserved word. -/
def parseIdent : List Tok → Except String (String × List Tok)
  | .ident s :: rest =>
    if s ∈ rustReservedWords then .error "expected identifier, found keyword"
    else .ok (s, rest)
  | _ => .error "expected identifier"

/-- Model of `Token![:]`: consumes one `:` punctuation token. -/
def parseColon : List Tok → Except String (List Tok)
  | .punct ':' _ :: rest => .ok rest
  | _ => .error "expected `:`"

/-- `Token![::]` peek: a joint `:` immediately followed by another `:`. -/
def peekPathSep : List Tok → Bool
  | .punct ':' true :: .punct ':' _ :: _ => true
  | _ => false

/-- `Token![<-]` peek (checked by `PathSegment::parse` before treating a
`<` as the start of generic arguments). -/
def peekLArrow : List Tok → Bool
  | .punct '<' true :: .punct '-' _ :: _ => true
  | _ => false

/-- Model of `AngleBracketedGenericArguments` at the token level: from an
opening `<`, the balanced run of tokens up to the matching `>` is
consumed; the crate never inspects these tokens, so only their rendered
text is kept. -/
def scanAnglesAux : Nat → List Tok → String → Except String (String × List Tok)
  | _, [], _ => .error "unexpected end of input in generic arguments"
  | depth, t :: rest, acc =>
    match t with
    | .punct '<' _ => scanAnglesAux (depth + 1) rest (acc ++ "<")
    | .punct '>' _ =>
      if depth = 1 then .ok (acc ++ ">", rest)
      else scanAnglesAux (depth - 1) rest (acc ++ ">")
    | t => scanAnglesAux depth rest (acc ++ t.render)

def parseGenericArgs : List Tok → Except String (String × List Tok)
  | .punct '<' _ :: rest => scanAnglesAux 1 rest "<"
  | _ => .error "expected `<`"

/-- The path-keyword segments `PathSegment::parse` accepts via
`Ident::parse_any`. -/
def segmentKeywords : List String := ["super", "self", "crate"]

/-- Model of `syn::PathSegment::parse` (type style): `super`/`self`/
`crate` become bare segments; otherwise a non-reserved identifier (or
`Self`), optionally followed by angle-bracketed generic arguments when
the next token is `<` and not the start of `<-`. -/
def parsePathSegment (ts : List Tok) : Except String (PathSegment × List Tok) :=
  match ts with
  | .ident s :: rest =>
    if s ∈ segmentKeywords then .ok (⟨s, ""⟩, rest)
    else if s ≠ "Self" ∧ s ∈ rustReservedWords then
      .error "expected identifier in path segment"
    else
      match rest with
      | .punct '<' _ :: _ =>
        if peekLArrow rest then .ok (⟨s, ""⟩, rest)
        else
          match parseGenericArgs rest with
          | .error e => .error e
          | .ok (args, rest') => .ok (⟨s, args⟩, rest')
      | _ => .ok (⟨s, ""⟩, rest)
  | _ => .error "expected path segment"

/-- Model of `Path::parse_rest`: while the input peeks `::` not followed
by a parenthesized group, consume `::` and a further segment. -/
def parsePathRest : Nat → Bool → List PathSegment → List Tok →
    Except String (Path × List Tok)
  | 0, _, _, _ => .error "out of fuel"
  | fuel + 1, lc, segs, ts =>
    match ts with
    | .punct ':' true :: .punct ':' _ :: rest =>
      match rest with
      | .group .paren _ :: _ => .ok (⟨lc, segs⟩, ts)
      | _ =>
        match parsePathSegment rest with
        | .error e => .error e
        | .ok (seg, rest') => parsePathRest fuel lc (segs ++ [seg]) rest'
    | _ => .ok (⟨lc, segs⟩, ts)

/-- Model of `syn::Path::parse` (type style): an optional leading `::`,
a first segment, then `parse_rest`. The fuel bound exceeds the input
length, which each iteration shortens. -/
def parsePath (ts : List Tok) : Except String (Path × List Tok) :=
  let (lc, ts₁) :=
    match ts with
    | .punct ':' true :: .punct ':' _ :: rest => (true, rest)
    | _ => (false, ts)
  match parsePathSegment ts₁ with
  | .error e => .error e
  | .ok (seg, ts₂) => parsePathRest (ts₂.length + 1) lc [seg] ts₂

/-- Model of `Punctuated::<Path, Token![,]>::parse_terminated`: an empty
input yields an empty list; otherwise paths separated by `,`, a trailing
comma accepted, looping until the input is exhausted. -/
def parseTerminatedPaths : Nat → List Tok → Except String (List Path × List Tok)
  | 0, _ => .error "out of fuel"
  | fuel + 1, ts =>
    match ts with
    | [] => .ok ([], [])
    | _ =>
      match parsePath ts with
      | .error e => .error e
      | .ok (p, rest) =>
        match rest with
        | [] => .ok ([p], [])
        | .punct ',' _ :: rest' =>
          match parseTerminatedPaths fuel rest' with
          | .error e => .error e
          | .ok (ps, rest'') => .ok (p :: ps, rest'')
        | _ => .error "expected `,`"

/-- Model of `syn::Visibility` as this crate uses it: preserved verbatim
into the emitted declaration, never interpreted. -/
inductive Visibility where
  | inherited
  | public
  | crateVis
  | restricted (path : String)
  deriving Repr, DecidableEq

/-- Model of `syn::Visibility::parse` (syn 1.x): `pub`, optionally
restricted by a parenthesized `crate`/`self`/`super`/`in path` group; a
bare `crate` keyword not followed by `::`; otherwise the inherited
visibility, consuming nothing. The restriction tokens are opaque to this
crate and kept as rendered text. -/
def parseVisibility (ts : List Tok) : Visibility × List Tok :=
  match ts with
  | .ident s :: rest =>
    if s = "pub" then
      match rest with
      | .group .paren inner :: rest' =>
        match inner with
        | [.ident w] =>
          if w = "crate" ∨ w = "self" ∨ w = "super" then (.restricted w, rest')
          else (.public, rest)
        | .ident w :: _ =>
          if w = "in" then (.restricted (renderToks inner), rest')
          else (.public, rest)
        | _ => (.public, rest)
      | _ => (.public, rest)
    else if s = "crate" then
      if peekPathSep rest then (.inherited, ts) else (.crateVis, rest)
    else (.inherited, ts)
  | _ => (.inherited, ts)

/-- Model of `ErrorSpecification` in `src/parser.rs`. -/
structure ErrorSpecification where
  visibility : Visibility
  name : String
  error_types : List Path
  deriving Repr, DecidableEq

/-- Model of `impl Parse for ErrorSpecification` in `src/parser.rs`:
visibility, then the new type's identifier, then `:`, then
`parse_terminated::<Path, Token![,]>`; returns the specification and the
unconsumed remainder of the token stream. -/
def ErrorSpecification.parseToks (ts : List Tok) :
    Except String (ErrorSpecification × List Tok) :=
  match parseVisibility ts with
  | (vis, ts₁) =>
    match parseIdent ts₁ with
    | .error e => .error e
    | .ok (name, ts₂) =>
      match parseColon ts₂ with
      | .error e => .error e
      | .ok ts₃ =>
        match parseTerminatedPaths (ts₃.length + 1) ts₃ with
        | .error e => .error e
        | .ok (paths, rest) => .ok (⟨vis, name, paths⟩, rest)

/-- Model of `parse_macro_input!(input as ErrorSpecification)` in
`create_error` (`src/lib.rs`): the `Parse` impl runs on the whole input,
and any token it leaves unconsumed is a parse error. -/
def create_error_parse (input : List Tok) : Except String ErrorSpecification :=
  match ErrorSpecification.parseToks input with
  | .error e => .error e
  | .ok (spec, rest) =>
    match rest with
    | [] => .ok spec
    | _ => .error "unexpected token"

/-! ## Emission (model of `src/variant.rs` and the `create_error` body)

The `quote!` templates in the source are modelled structurally: the
emitted token stream is recorded as the ordered bundle of items it
declares, each item keeping exactly the data the template interpolates. -/

/-- Model of `Variant` in `src/variant.rs`. -/
structure Variant where
  variant_name : String
  error_type : Path
  deriving Repr, DecidableEq

/-- Model of `impl From<Path> for Variant`: the name is derived by
`recapitalize_error_path`, the path kept whole. -/
def Variant.fromPath (path : Path) : Variant :=
  ⟨recapitalize_error_path path, path⟩

/-- Model of `impl ToTokens for Variant`: the template
`#name(#error_type)` — the derived constructor name wrapping the input
path re-emitted verbatim. -/
def Variant.to_tokens (v : Variant) : String :=
  v.variant_name ++ "(" ++ v.error_type.render ++ ")"

/-- One emitted `From` impl, as `Variant::build_from_impl` templates it:
`impl From<#error_type> for #enum_name` whose body is
`Self::#name(error)` — the source type re-emitted verbatim, the target
enum, and the selected constructor. -/
structure FromImpl where
  error_type : Path
  enum_name : String
  variant_name : String
  deriving Repr, DecidableEq

/-- Model of `Variant::build_from_impl` in `src/variant.rs`. -/
def Variant.build_from_impl (v : Variant) (enum_name : String) : FromImpl :=
  ⟨v.error_type, enum_name, v.variant_name⟩

/-- The emitted enum declaration: `#[derive(Debug)] #visibility enum
#trait_name { #(#variants),* }`. -/
structure EnumItem where
  visibility : Visibility
  name : String
  derives_debug : Bool
  variants : List Variant
  deriving Repr, DecidableEq

/-- The emitted `Display` impl: its `fmt` body is
`write!(f, "\x7b:?\x7d", self)`; the format string is recorded as
written in the source. -/
structure DisplayImpl where
  enum_name : String
  format_string : String
  deriving Repr, DecidableEq

/-- The emitted (empty) `Error` impl. -/
structure ErrorImpl where
  enum_name : String
  deriving Repr, DecidableEq

/-- The full emitted token stream of `create_error`, as the ordered
bundle of items the `quote!` blocks declare. -/
structure Emitted where
  enumItem : EnumItem
  displayImpl : DisplayImpl
  errorImpl : ErrorImpl
  from_impls : List FromImpl
  deriving Repr, DecidableEq

/-- Model of the body of `create_error` in `src/lib.rs` after parsing:
the variants are built from the error-type paths in order; the `quote!`
block contributes the Debug-deriving enum, the `Display` impl writing
`"\x7b:?\x7d"` of `self`, and the empty `Error` impl; then
`build_from_impl` appends one `From` impl per variant, in variant
order. -/
def create_error_emit (spec : ErrorSpecification) : Emitted :=
  let variants := spec.error_types.map Variant.fromPath
  { enumItem := ⟨spec.visibility, spec.name, true, variants⟩
    displayImpl := ⟨spec.name, "\x7b:?\x7d"⟩
    errorImpl := ⟨spec.name⟩
    from_impls := variants.map (fun v => v.build_from_impl spec.name) }

/-- Model of the `create_error` proc-macro entry point (`src/lib.rs`):
parse the input, then emit. -/
def create_error (input : List Tok) : Except String Emitted :=
  (create_error_parse input).map create_error_emit

/-! ## Runtime semantics of the emitted items

The host language gives the emitted declarations their runtime meaning;
the fragments below model exactly the behavior the emitted bodies pin
down: construction of a tagged value, matching a constructor, and the
format string `"\x7b:?\x7d"`. -/

/-- A runtime value of the generated union: a constructor tag and the
wrapped payload. -/
structure TaggedValue (α : Type) where
  tag : String
  payload : α
  deriving Repr, DecidableEq

/-- Runtime semantics of one emitted `From` impl: the body
`Self::#name(error)` builds the union value tagged with the impl's
constructor, carrying the argument unchanged. It is a total function of
`e` — the injection cannot fail. -/
def FromImpl.apply (fi : FromImpl) (e : α) : TaggedValue α :=
  ⟨fi.variant_name, e⟩

/-- Pattern-matching a union value against one constructor: the payload
when the tag selects that constructor, `none` otherwise. -/
def TaggedValue.matchVariant (v : TaggedValue α) (ctor : String) : Option α :=
  if v.tag = ctor then some v.payload else none

/-- Interpreter for the fragment of Rust's format syntax that the
emitted `Display` impl uses: the sequence `\x7b:?\x7d` inserts the
`Debug` rendering of the argument (`self`); any other character is
literal text. -/
def interpFormat : List Char → String → String
  | [], _ => ""
  | '\x7b' :: ':' :: '?' :: '\x7d' :: rest, dbg => dbg ++ interpFormat rest dbg
  | c :: rest, dbg => String.singleton c ++ interpFormat rest dbg

/-- Runtime semantics of the emitted `Display` impl: `fmt` writes the
impl's format string with `self` as argument, given the `Debug`
rendering that the derived instance supplies for the value. -/
def DisplayImpl.render (d : DisplayImpl) (debugSelf : String) : String :=
  interpFormat d.format_string.data debugSelf

end Polyerror

namespace Polyerror

example : to_class_case "ABC" = "Abc" := by decide
example : to_class_case "ParseBoolError" = "ParseBoolError" := by decide
example : to_class_case "actix" = "Actix" := by decide
example : to_class_case "" = "" := by decide
example :
    recapitalize_error_path
      ⟨false, [⟨"std", ""⟩, ⟨"str", ""⟩, ⟨"ParseBoolError", ""⟩]⟩
      = "StdStrParseBoolError" := by decide

end Polyerror


/-! ## Theorems: name derivation -/

namespace Polyerror

theorem to_class_case_empty : to_class_case "" = "" := rfl

theorem string_join_cons (s : String) (l : List String) :
    String.join (s :: l) = s ++ String.join l := by
  apply String.ext
  simp [String.join_eq]

/-- The fold in `recapitalize_error_path` equals the spec's
filter-then-concatenate form, because class-casing an empty word yields
the empty string. -/
theorem foldl_class_case (ws : List String) (a : String) :
    ws.foldl (fun name word => name ++ to_class_case word) a
      = a ++ String.join ((ws.filter (fun w => w ≠ "")).map to_class_case) := by
  induction ws generalizing a with
  | nil => simp [String.join]
  | cons w ws ih =>
    simp only [List.foldl_cons, ih]
    by_cases hw : w = ""
    · subst hw
      simp [to_class_case_empty]
    · simp only [List.filter_cons, hw, decide_not, decide_False, Bool.not_false,
        if_pos, List.map_cons, string_join_cons, String.append_assoc]

/-- `recapitalize_error_path` and the spec §4.2 algorithm agree on every
path. -/
theorem recapitalize_eq_specDerive (path : Path) :
    recapitalize_error_path path = specDeriveName path := by
  unfold recapitalize_error_path specDeriveName
  rw [foldl_class_case, String.empty_append, List.filter_flatMap,
    List.flatMap_map]

end Polyerror

namespace Polyerror

/-- **C1.** For every input path, the variant name computed by
`recapitalize_error_path` equals the result of the spec's §4.2 algorithm
(`specDeriveName`): each path segment's identifier in order, split on
underscores with empty words discarded, each word rewritten to
class-case, and all words concatenated with no separator. -/
theorem C1_recapitalize_matches_spec_algorithm (path : Path) :
    recapitalize_error_path path = specDeriveName path :=
  recapitalize_eq_specDerive path

/-- **C3.** The normative examples: `std::str::ParseBoolError` derives
`StdStrParseBoolError`, `aa::bb::cc::ABC` derives `AaBbCcAbc`, and
`actix_web::Error` derives `ActixWebError`. -/
theorem C3_normative_example_names :
    recapitalize_error_path
        ⟨false, [⟨"std", ""⟩, ⟨"str", ""⟩, ⟨"ParseBoolError", ""⟩]⟩
      = "StdStrParseBoolError"
  ∧ recapitalize_error_path
        ⟨false, [⟨"aa", ""⟩, ⟨"bb", ""⟩, ⟨"cc", ""⟩, ⟨"ABC", ""⟩]⟩
      = "AaBbCcAbc"
  ∧ recapitalize_error_path ⟨false, [⟨"actix_web", ""⟩, ⟨"Error", ""⟩]⟩
      = "ActixWebError" :=
  ⟨by decide, by decide, by decide⟩

/-- **C4.** Name derivation is deterministic and pure: the derived name
is a function of the path's segment identifiers alone, so any two paths
with the same segment identifiers (equal paths in particular) yield the
same variant name. -/
theorem C4_recapitalize_pure_in_segment_idents (p q : Path)
    (h : p.segments.map PathSegment.ident = q.segments.map PathSegment.ident) :
    recapitalize_error_path p = recapitalize_error_path q := by
  rw [recapitalize_eq_specDerive p, recapitalize_eq_specDerive q]
  unfold specDeriveName
  rw [h]

theorem C4_recapitalize_pure_in_segment_idents_witness :
    recapitalize_error_path ⟨true, [⟨"A", "<u8>"⟩]⟩
      = recapitalize_error_path ⟨false, [⟨"A", "<i32>"⟩]⟩ :=
  C4_recapitalize_pure_in_segment_idents
    ⟨true, [⟨"A", "<u8>"⟩]⟩ ⟨false, [⟨"A", "<i32>"⟩]⟩ rfl

end Polyerror

namespace Polyerror

/-- A path with the generic-argument tokens of every segment removed;
used only to state that arguments play no part in name derivation. -/
def Path.stripArguments (p : Path) : Path :=
  ⟨p.leading_colon, p.segments.map (fun s => ⟨s.ident, ""⟩)⟩

/-- **C5.** For every path whose final segment carries generic
arguments, the arguments contribute nothing to the derived variant name
(it equals the name derived from the argument-free path), while the full
path is re-emitted verbatim: the emitted constructor tokens are the name
wrapping `p.render` (arguments included), and the emitted `From` impl's
source type is the path itself. -/
theorem C5_generic_args_ignored_in_name_kept_in_type (p : Path) (n : String)
    (hne : p.segments ≠ [])
    (_hargs : (p.segments.getLast hne).arguments ≠ "") :
    recapitalize_error_path p = recapitalize_error_path p.stripArguments
  ∧ (Variant.fromPath p).to_tokens
      = recapitalize_error_path p.stripArguments ++ "(" ++ p.render ++ ")"
  ∧ ((Variant.fromPath p).build_from_impl n).error_type = p := by
  have hname : recapitalize_error_path p = recapitalize_error_path p.stripArguments := by
    rw [recapitalize_eq_specDerive p, recapitalize_eq_specDerive p.stripArguments]
    unfold specDeriveName Path.stripArguments
    rw [List.map_map]
    rfl
  refine ⟨hname, ?_, rfl⟩
  unfold Variant.to_tokens Variant.fromPath
  rw [hname]

theorem C5_generic_args_ignored_in_name_kept_in_type_witness :
    recapitalize_error_path ⟨false, [⟨"Vec", "<u8>"⟩]⟩
        = recapitalize_error_path (Path.stripArguments ⟨false, [⟨"Vec", "<u8>"⟩]⟩)
  ∧ (Variant.fromPath ⟨false, [⟨"Vec", "<u8>"⟩]⟩).to_tokens
        = recapitalize_error_path (Path.stripArguments ⟨false, [⟨"Vec", "<u8>"⟩]⟩)
            ++ "(" ++ Path.render ⟨false, [⟨"Vec", "<u8>"⟩]⟩ ++ ")"
  ∧ ((Variant.fromPath ⟨false, [⟨"Vec", "<u8>"⟩]⟩).build_from_impl "E").error_type
        = ⟨false, [⟨"Vec", "<u8>"⟩]⟩ :=
  C5_generic_args_ignored_in_name_kept_in_type
    ⟨false, [⟨"Vec", "<u8>"⟩]⟩ "E" (by decide) (by decide)

/-- **C10.** The derived variant name depends only on the segment
identifiers, not on a leading `::` path-root qualifier:
`::std::num::ParseIntError` and `std::num::ParseIntError` derive the same
name `StdNumParseIntError`, although the two payload types are
re-emitted differently. -/
theorem C10_leading_colon_ignored_in_name :
    (∀ (b₁ b₂ : Bool) (segs : List PathSegment),
        recapitalize_error_path ⟨b₁, segs⟩ = recapitalize_error_path ⟨b₂, segs⟩)
  ∧ recapitalize_error_path
        ⟨true, [⟨"std", ""⟩, ⟨"num", ""⟩, ⟨"ParseIntError", ""⟩]⟩
      = "StdNumParseIntError"
  ∧ recapitalize_error_path
        ⟨false, [⟨"std", ""⟩, ⟨"num", ""⟩, ⟨"ParseIntError", ""⟩]⟩
      = "StdNumParseIntError"
  ∧ Path.render ⟨true, [⟨"std", ""⟩, ⟨"num", ""⟩, ⟨"ParseIntError", ""⟩]⟩
      ≠ Path.render ⟨false, [⟨"std", ""⟩, ⟨"num", ""⟩, ⟨"ParseIntError", ""⟩]⟩ :=
  ⟨fun _ _ _ => rfl, by decide, by decide, by decide⟩

end Polyerror

/-! ## Theorems: emission -/

namespace Polyerror

/-- **C6.** For every parsed specification, the emitted enum has exactly
one constructor per input path, in input order, with no hidden extras:
the constructor count equals the path count, and at every index the
constructor is named by the derived variant name of that path and wraps
that path as its payload type, verbatim. -/
theorem C6_enum_one_constructor_per_path (spec : ErrorSpecification) :
    (create_error_emit spec).enumItem.variants.length = spec.error_types.length
  ∧ ∀ i : Nat,
      ((create_error_emit spec).enumItem.variants[i]?).map Variant.variant_name
          = (spec.error_types[i]?).map recapitalize_error_path
    ∧ ((create_error_emit spec).enumItem.variants[i]?).map Variant.error_type
          = spec.error_types[i]? := by
  unfold create_error_emit
  refine ⟨by simp, fun i => ⟨?_, ?_⟩⟩
  · simp only [List.getElem?_map, Option.map_map]
    cases spec.error_types[i]? <;> rfl
  · simp only [List.getElem?_map, Option.map_map]
    cases spec.error_types[i]? <;> rfl

/-- **C7.** For each variant of the emitted union, the emitted `From`
impl is a total injection tagging its payload with the constructor the
enum declares at the same index, and pattern-matching the injected value
on that constructor exposes the payload unchanged. -/
theorem C7_from_impl_round_trip {α : Type} (spec : ErrorSpecification)
    (i : Nat) (fi : FromImpl)
    (h : (create_error_emit spec).from_impls[i]? = some fi) (e : α) :
    ((create_error_emit spec).enumItem.variants[i]?).map Variant.variant_name
        = some fi.variant_name
  ∧ fi.apply e = ⟨fi.variant_name, e⟩
  ∧ (fi.apply e).matchVariant fi.variant_name = some e := by
  refine ⟨?_, rfl, by simp [FromImpl.apply, TaggedValue.matchVariant]⟩
  unfold create_error_emit at h ⊢
  simp only [List.getElem?_map, Option.map_map] at h ⊢
  cases he : spec.error_types[i]? with
  | none => rw [he] at h; exact absurd h (by simp)
  | some p =>
    rw [he] at h
    simp only [Option.map_some', Function.comp_apply] at h ⊢
    injection h with h
    rw [← h]
    rfl

theorem C7_from_impl_round_trip_witness :
    ((create_error_emit
          ⟨Visibility.inherited, "E", [⟨false, [⟨"A", ""⟩]⟩]⟩).enumItem.variants[0]?).map
        Variant.variant_name
        = some (FromImpl.variant_name ⟨⟨false, [⟨"A", ""⟩]⟩, "E", "A"⟩)
  ∧ FromImpl.apply ⟨⟨false, [⟨"A", ""⟩]⟩, "E", "A"⟩ (42 : Nat)
        = ⟨FromImpl.variant_name ⟨⟨false, [⟨"A", ""⟩]⟩, "E", "A"⟩, 42⟩
  ∧ (FromImpl.apply ⟨⟨false, [⟨"A", ""⟩]⟩, "E", "A"⟩ (42 : Nat)).matchVariant
        (FromImpl.variant_name ⟨⟨false, [⟨"A", ""⟩]⟩, "E", "A"⟩)
        = some 42 :=
  C7_from_impl_round_trip
    ⟨Visibility.inherited, "E", [⟨false, [⟨"A", ""⟩]⟩]⟩ 0
    ⟨⟨false, [⟨"A", ""⟩]⟩, "E", "A"⟩ (by decide) 42

/-- **C9.** For every value of the generated union, the display
rendering equals the debug rendering: the emitted `Display` impl writes
the format string `"\x7b:?\x7d"` applied to `self`, which is exactly the
`Debug` form the derived instance supplies. -/
theorem C9_display_equals_debug (spec : ErrorSpecification) (dbg : String) :
    ((create_error_emit spec).displayImpl).render dbg = dbg := by
  show interpFormat ("\x7b:?\x7d").data dbg = dbg
  rw [show ("\x7b:?\x7d").data = ['\x7b', ':', '?', '\x7d'] from rfl]
  simp [interpFormat]

end Polyerror

/-! ## Theorems: parsing -/

namespace Polyerror

/-- `parse_terminated` loops until its input is exhausted: on success it
leaves no tokens unconsumed. -/
theorem parseTerminatedPaths_consumes_all :
    ∀ (fuel : Nat) (ts : List Tok) (r : List Path × List Tok),
      parseTerminatedPaths fuel ts = .ok r → r.2 = [] := by
  intro fuel
  induction fuel with
  | zero =>
    intro ts r h
    simp [parseTerminatedPaths] at h
  | succ n ih =>
    intro ts r h
    cases ts with
    | nil =>
      simp only [parseTerminatedPaths] at h
      cases h
      rfl
    | cons t ts' =>
      simp only [parseTerminatedPaths] at h
      split at h
      · exact absurd h (by simp)
      · split at h
        · cases h
          rfl
        · split at h
          · exact absurd h (by simp)
          · rename_i ps rest'' heq
            cases h
            exact ih _ (ps, rest'') heq
        · exact absurd h (by simp)

/-- `ErrorSpecification::parse` consumes its whole input on success, so
the entry point accepts exactly when nothing follows the
specification. -/
theorem parseToks_consumes_all :
    ∀ (ts : List Tok) (spec : ErrorSpecification) (rest : List Tok),
      ErrorSpecification.parseToks ts = .ok (spec, rest) →
      rest = [] ∧ create_error_parse ts = .ok spec := by
  intro ts spec rest h
  have hrest : rest = [] := by
    unfold ErrorSpecification.parseToks at h
    split at h
    split at h
    · exact absurd h (by simp)
    · split at h
      · exact absurd h (by simp)
      · split at h
        · exact absurd h (by simp)
        · rename_i paths rest' heq
          cases h
          exact parseTerminatedPaths_consumes_all _ _ _ heq
  subst hrest
  refine ⟨rfl, ?_⟩
  unfold create_error_parse
  rw [h]

end Polyerror

namespace Polyerror

/-- **C8.** The parser never silently ignores tokens beyond the
specification: whenever `ErrorSpecification::parse` succeeds it has
consumed the entire input (so the entry point accepts), and a
well-formed specification followed by a token that cannot extend the
path list — here `Foo: A` followed by `;` — is a parse failure. -/
theorem C8_no_ignored_trailing_tokens :
    (∀ (ts : List Tok) (spec : ErrorSpecification) (rest : List Tok),
        ErrorSpecification.parseToks ts = .ok (spec, rest) →
        rest = [] ∧ create_error_parse ts = .ok spec)
  ∧ create_error_parse
      [Tok.ident "Foo", Tok.punct ':' false, Tok.ident "A", Tok.punct ';' false]
      = .error "expected `,`" :=
  ⟨parseToks_consumes_all, rfl⟩

theorem C8_no_ignored_trailing_tokens_witness :
    ([] : List Tok) = []
  ∧ create_error_parse [Tok.ident "Foo", Tok.punct ':' false, Tok.ident "A"]
      = .ok ⟨Visibility.inherited, "Foo", [⟨false, [⟨"A", ""⟩]⟩]⟩ :=
  C8_no_ignored_trailing_tokens.1
    [Tok.ident "Foo", Tok.punct ':' false, Tok.ident "A"]
    ⟨Visibility.inherited, "Foo", [⟨false, [⟨"A", ""⟩]⟩]⟩ [] rfl

/-- **C2 counterexample.** The claim says an empty path list after the
colon is a parse error; in fact `Foo:` parses successfully, to a
specification with zero variants (`parse_terminated` accepts an empty
sequence). -/
theorem C2_empty_path_list_parses_counterexample :
    create_error_parse [Tok.ident "Foo", Tok.punct ':' false]
      = .ok ⟨Visibility.inherited, "Foo", []⟩ := rfl

/-- **C2 (amended).** Parsing an input whose path list after the colon
is empty succeeds for every non-keyword name, yielding a specification
with zero variants, and the emitted enum then has zero constructors; the
invariant that every successfully parsed specification has at least one
variant does not hold. -/
theorem C2_empty_path_list_accepted (n : String) (h : n ∉ rustReservedWords) :
    create_error_parse [Tok.ident n, Tok.punct ':' false]
      = .ok ⟨Visibility.inherited, n, []⟩
  ∧ (create_error_emit ⟨Visibility.inherited, n, []⟩).enumItem.variants = [] := by
  have hpub : n ≠ "pub" := fun e => h (by rw [e]; decide)
  have hcrate : n ≠ "crate" := fun e => h (by rw [e]; decide)
  refine ⟨?_, rfl⟩
  unfold create_error_parse ErrorSpecification.parseToks parseVisibility
    parseIdent parseColon parseTerminatedPaths
  simp [hpub, hcrate, h]

theorem C2_empty_path_list_accepted_witness :
    create_error_parse [Tok.ident "Bar", Tok.punct ':' false]
      = .ok ⟨Visibility.inherited, "Bar", []⟩
  ∧ (create_error_emit ⟨Visibility.inherited, "Bar", []⟩).enumItem.variants = [] :=
  C2_empty_path_list_accepted "Bar" (by decide)

end Polyerror
